import Mathlib

/-!
# go-chat-application: token lifecycle

A shallow embedding of the token registry (`tokenPackage/token.go`), the
extraction pipeline (`handlers/handler_functions.go`) and the user handlers
(`handlers/userHandlers.go`), followed by the properties proved about them.

Conventions of the embedding.
* A Go `string` is a `String`; `len` is the UTF-8 byte size.
* `time.Time` and `time.Duration` are integers counting nanoseconds.
* A Go `map` is an association list; the order of the list is the order in
  which a `range` loop visits the entries. Go leaves that order unspecified,
  so statements quantify over every list.
* Calls that leave the repository (the JWT signature engine, bcrypt, the
  UUID generator, the clock, MongoDB) are fields of an environment record.
-/

namespace GoChat

/-! ## Claims and tokens (`jwt.MapClaims`, `jwt.Token`) -/

/-- A value stored in a `jwt.MapClaims` (`map[string]interface{}`): the nil
interface, a string, a bool, a JSON number (whole numbers), or a
`*jwt.NumericDate` (the time it holds, in nanoseconds). These are the dynamic
types that occur in claims built by `LoginUserHandler` and in their JSON
decoding. -/
inductive Value where
  | null
  | str (s : String)
  | bool (b : Bool)
  | num (n : Int)
  | date (t : Int)
  deriving DecidableEq

/-- The Go type `jwt.MapClaims`. -/
abbrev MapClaims := List (String × Value)

/-- The two-valued index `v, ok := m[key]`. -/
def MapClaims.lookup : MapClaims → String → Option Value
  | [], _ => none
  | (k, v) :: rest, key => if k = key then some v else MapClaims.lookup rest key

/-- The index expression `m[key]`: the nil interface when the key is absent. -/
def MapClaims.index (m : MapClaims) (key : String) : Value :=
  (MapClaims.lookup m key).getD Value.null

/-- The signing method of a token (its `alg` header). -/
inductive SigningMethod where
  | HS256
  | HS384
  | HS512
  | other (alg : String)
  deriving DecidableEq

/-- The type assertion `token.Method.(*jwt.SigningMethodHMAC)` succeeds. -/
def SigningMethod.isHMAC : SigningMethod → Bool
  | .HS256 => true
  | .HS384 => true
  | .HS512 => true
  | .other _ => false

/-- The fields of `jwt.Token` the program reads or sets. -/
structure Token where
  Raw : String
  Method : SigningMethod
  Claims : MapClaims
  Valid : Bool
  deriving DecidableEq

/-- The constructor `jwt.NewWithClaims(method, claims)`. -/
def NewWithClaims (method : SigningMethod) (claims : MapClaims) : Token :=
  { Raw := "", Method := method, Claims := claims, Valid := false }

/-! ## Time -/

/-- The duration `time.Second`, in nanoseconds. -/
def Second : Int := 1000000000

/-- The duration `time.Hour`, in nanoseconds. -/
def Hour : Int := 60 * (60 * Second)

/-- The constant `AccessExpiration` of `userHandlers.go`. -/
def AccessExpiration : Int := Hour

/-- The constant `RefreshExpiration` of `userHandlers.go`. -/
def RefreshExpiration : Int := 7 * (Hour * 24)

/-- The constructor `jwt.NewNumericDate(t)`: `t` truncated to `jwt.TimePrecision`,
which is one second. -/
def NewNumericDate (t : Int) : Value :=
  Value.date (t - t % Second)

/-! ## The JWT library (`github.com/golang-jwt/jwt/v5`) -/

/-- The part of the JWT library that encodes, decodes and computes MACs.
`SignedString tok key` is `tok.SignedString(key)` (`none` on error);
`ParseUnverified s` is the decoding of the three segments of `s` into a
token (`none` when `s` is malformed); `Verify tok key` tells whether the
signature segment of the decoded token is the MAC of its signing input
under `key`. -/
structure SignatureEngine where
  SignedString : Token → String → Option String
  ParseUnverified : String → Option Token
  Verify : Token → String → Bool

/-- The method `MapClaims.parseNumericDate(key)` of the library: `none` is the
invalid-type error, `some none` the absent date. -/
def parseNumericDate (m : MapClaims) (key : String) : Option (Option Int) :=
  match MapClaims.lookup m key with
  | none => some none
  | some (Value.num n) => if n = 0 then some none else some (some (n * Second))
  | some _ => none

/-- The default `Validator.Validate` of the library on map claims at clock
reading `now`: the registered claim `exp`, when present, must be after `now`,
and the registered claim `nbf`, when present, must not be after `now`. No other
key is consulted. -/
def Validate (now : Int) (m : MapClaims) : Bool :=
  (match parseNumericDate m "exp" with
    | none => false
    | some none => true
    | some (some exp) => decide (now < exp)) &&
  (match parseNumericDate m "nbf" with
    | none => false
    | some none => true
    | some (some nbf) => decide (nbf ≤ now))

/-- The function `jwt.Parse(tokenString, keyFunc)`: decode, ask `keyFunc` for the
key, verify the signature, validate the claims. `none` is a non-nil error. -/
def Parse (eng : SignatureEngine) (now : Int) (tokenString : String)
    (keyFunc : Token → Option String) : Option Token :=
  match eng.ParseUnverified tokenString with
  | none => none
  | some token =>
    match keyFunc token with
    | none => none
    | some key =>
      if eng.Verify token key then
        if Validate now token.Claims then some { token with Valid := true } else none
      else none

/-! ## Requests -/

/-- The struct `database.MongoDBClient`. -/
structure MongoDBClient where
  DBName : String
  deriving DecidableEq

/-- The request parameters a handler decodes from the JSON body. -/
structure Params where
  Name : String
  Email : String
  Password : String
  deriving DecidableEq

/-- What a handler reads of an `*http.Request`: the `Authorization` header
(`""` when absent), the outcome of decoding the body (`none` is a decoding
error) and the value stored in the context under `config.ApiCfg.DB` (`none`
when the type assertion to `*database.MongoDBClient` fails). -/
structure Request where
  Authorization : String
  Body : Option Params
  ctxDB : Option MongoDBClient
  deriving DecidableEq

/-! ## `tokenPackage/token.go` -/

/-- The package variable `TokenMap` (`map[string]*jwt.Token`), as the list of its
entries in iteration order. -/
abbrev TokenMap := List (String × Token)

/-- The index expression `TokenMap[id]`. -/
def TokenMap.lookup : TokenMap → String → Option Token
  | [], _ => none
  | (k, t) :: rest, id => if k = id then some t else TokenMap.lookup rest id

/-- The assignment `TokenMap[id] = token`: overwrite the entry of `id`, or add one. -/
def TokenMap.assign : TokenMap → String → Token → TokenMap
  | [], id, token => [(id, token)]
  | (k, t) :: rest, id, token =>
    if k = id then (id, token) :: rest else (k, t) :: TokenMap.assign rest id token

/-- The function `AddTokenToMap`. `none` is the panic of the type assertion
`.(string)` on an `ID` claim that is not a string. -/
def AddTokenToMap (token : Token) (tm : TokenMap) : Option TokenMap :=
  match token.Claims.index "ID" with
  | Value.str id => some (TokenMap.assign tm id token)
  | _ => none

/-- The call `strings.SplitN(s, " ", 2)`. -/
def SplitN2 (s : String) : List String :=
  match s.data.span (fun c => c != ' ') with
  | (_, []) => [s]
  | (before, _ :: after) => [String.mk before, String.mk after]

/-- The function `ExtractJWTTokenFromHeader`. -/
def ExtractJWTTokenFromHeader (r : Request) : String :=
  let authHeader := r.Authorization
  if authHeader = "" then ""
  else if authHeader.utf8ByteSize > 7 ∧ ' ' ∈ authHeader.data then
    match SplitN2 authHeader with
    | [_, token] => token
    | _ => ""
  else ""

/-- The function `ParseAndValidateJWTToken` under the process secret `secret` at
clock reading `now`; `none` is a non-nil error. -/
def ParseAndValidateJWTToken (eng : SignatureEngine) (secret : String) (now : Int)
    (tokenString : String) : Option Token :=
  if tokenString = "" then none
  else
    Parse eng now tokenString
      (fun token => if token.Method.isHMAC then some secret else none)

/-! ## `internal/database` and `config` -/

/-- The type `primitive.ObjectID`, by its hexadecimal form. -/
structure ObjectID where
  hex : String
  deriving DecidableEq

/-- The method `ObjectID.String()`, which wraps the hexadecimal form. -/
def ObjectIDString (id : ObjectID) : String :=
  "ObjectID(\"" ++ id.hex ++ "\")"

/-- The struct `database.User`. -/
structure User where
  ID : ObjectID
  Name : String
  Email : String
  Password : String
  CreatedAt : Int
  UpdatedAt : Int
  deriving DecidableEq

/-- A call of one of the four methods of `internal/database/users.go`. -/
inductive DBCall where
  | CreateUser (name email password : String)
  | GetAllUsers
  | UpdateUser (id name email password : String)
  | DeleteUser (id : String)
  deriving DecidableEq

/-! ## Responses and the environment of a handler -/

/-- The user fields the handlers put into a response. -/
structure UserView where
  id : ObjectID
  name : String
  email : String
  created_at : Int
  updated_at : Int
  deriving DecidableEq

/-- The values the handlers pass to `RespondWithJSON` and `RespondWithError`. -/
inductive Payload where
  | error (msg : String)
  | text (msg : String)
  | user (u : UserView)
  | users (us : List UserView)
  | login (id : Value) (name email access_token refresh_token : String)
  deriving DecidableEq

/-- The status `http.StatusOK`. -/
def StatusOK : Nat := 200
/-- The status `http.StatusCreated`. -/
def StatusCreated : Nat := 201
/-- The status `http.StatusBadRequest`. -/
def StatusBadRequest : Nat := 400
/-- The status `http.StatusUnauthorized`. -/
def StatusUnauthorized : Nat := 401
/-- The status `http.StatusInternalServerError`. -/
def StatusInternalServerError : Nat := 500

/-- What a handler can change: the token registry, the responses written to the
`http.ResponseWriter` (in order), the database methods called (in order), and
whether the goroutine panicked. -/
structure World where
  Registry : TokenMap
  Responses : List (Nat × Payload)
  DBCalls : List DBCall
  Panicked : Bool
  deriving DecidableEq

/-- What a handler invocation receives from outside the repository:
the process secret `config.ApiCfg.JwtSecret`, the JWT engine, the successive
readings of `time.Now()`, the successive results of `uuid.NewUUID()` (by
their `String()` form), bcrypt, `primitive.ObjectIDFromHex`, and the results
MongoDB gives to the four database methods (`none` and `false` are errors). -/
structure Env where
  JwtSecret : String
  eng : SignatureEngine
  Now : Nat → Int
  NewUUID : Nat → Option String
  CompareHashAndPassword : String → String → Bool
  GenerateFromPassword : String → Option String
  ObjectIDFromHex : String → Option ObjectID
  GetAllUsers : Option (List User)
  CreateUser : String → String → String → Option User
  UpdateUser : String → String → String → String → Bool
  DeleteUser : String → Bool

/-- Modelled from the spec: `RespondWithError` is declared outside the files at
hand; the boundary maps an error to a transport status code and a message, so
the call writes one response carrying both. -/
def RespondWithError (w : World) (code : Nat) (msg : String) : World :=
  { w with Responses := w.Responses ++ [(code, Payload.error msg)] }

/-- Modelled from the spec: `RespondWithJSON` is declared outside the files at
hand; the call writes one response with the status code and the JSON payload. -/
def RespondWithJSON (w : World) (code : Nat) (payload : Payload) : World :=
  { w with Responses := w.Responses ++ [(code, payload)] }

/-- A method of `internal/database/users.go` is entered. -/
def callDB (w : World) (c : DBCall) : World :=
  { w with DBCalls := w.DBCalls ++ [c] }

/-- A run-time panic (failed type assertion, nil dereference) ends the handler. -/
def goPanic (w : World) : World :=
  { w with Panicked := true }

/-! ## `handlers/handler_functions.go` -/

/-- The loop `for _, tok := range tokenPackage.TokenMap` of `ExtractDBAndToken`:
the first visited entry whose `ID` claim equals that of `token` replaces
`token`; without one `token` is kept. -/
def rangeTokenMap : TokenMap → Token → Token
  | [], token => token
  | (_, tok) :: rest, token =>
    if tok.Claims.index "ID" = token.Claims.index "ID" then tok
    else rangeTokenMap rest token

/-- The function `ExtractDBAndToken`, reading the registry `tm`. A nil pointer is
`none`. -/
def ExtractDBAndToken (env : Env) (tm : TokenMap) (r : Request) :
    Option Token × String × Option MongoDBClient :=
  let tokenString := ExtractJWTTokenFromHeader r
  if tokenString = "" then (none, "", none)
  else
    match ParseAndValidateJWTToken env.eng env.JwtSecret (env.Now 0) tokenString with
    | none => (none, "", none)
    | some parsed =>
      let token := rangeTokenMap tm parsed
      if token.Claims.index "Revoked" = Value.bool true then (none, "", none)
      else
        match r.ctxDB with
        | none => (none, "", none)
        | some client => (some token, tokenString, some client)

/-! ## `handlers/userHandlers.go` -/

/-- The call `strings.TrimPrefix(s, p)`. -/
def TrimPrefix (s p : String) : String :=
  if p.data.isPrefixOf s.data then String.mk (s.data.drop p.data.length) else s

/-- The call `strings.TrimSuffix(s, p)`. -/
def TrimSuffix (s p : String) : String :=
  if p.data.isSuffixOf s.data then String.mk (s.data.take (s.data.length - p.data.length))
  else s

/-- The map of user fields built by `CreateUserHandler` and `GetUsersHandler`. -/
def userMap (user : User) : UserView :=
  { id := user.ID, name := user.Name, email := user.Email,
    created_at := user.CreatedAt, updated_at := user.UpdatedAt }

/-- The handler `CreateUserHandler`. -/
def CreateUserHandler (env : Env) (r : Request) (w : World) : World :=
  match r.Body with
  | none => RespondWithError w StatusBadRequest "Invalid request payload"
  | some params =>
    match r.ctxDB with
    | none => goPanic w
    | some _ =>
      let w := callDB w (DBCall.CreateUser params.Name params.Email params.Password)
      match env.CreateUser params.Name params.Email params.Password with
      | none => RespondWithError w StatusInternalServerError "Unable to create user"
      | some user => RespondWithJSON w StatusCreated (Payload.user (userMap user))

/-- The handler `GetUsersHandler`. -/
def GetUsersHandler (env : Env) (r : Request) (w : World) : World :=
  match r.ctxDB with
  | none => goPanic w
  | some _ =>
    let w := callDB w DBCall.GetAllUsers
    match env.GetAllUsers with
    | none => RespondWithError w StatusInternalServerError "Unable to get users"
    | some users => RespondWithJSON w StatusOK (Payload.users (users.map userMap))

/-- The loops of `UpdateUserHandler` that search `users` for the identifier and
take one field of the first user found; the initial value (empty) otherwise. -/
def fieldOfUser (users : List User) (id : ObjectID) (field : User → String) : String :=
  match users.find? (fun user => decide (user.ID = id)) with
  | some user => field user
  | none => ""

/-- The handler `UpdateUserHandler`. -/
def UpdateUserHandler (env : Env) (r : Request) (w : World) : World :=
  match ExtractDBAndToken env w.Registry r with
  | (none, _, _) => w
  | (some token, _, client) =>
    match token.Claims.index "Issuer" with
    | Value.str issuer =>
      if issuer = "go-chat-application-refresh" then
        RespondWithError w StatusUnauthorized
          "Using JWT refresh token when JWT access token is required"
      else
        match r.Body with
        | none => RespondWithError w StatusBadRequest "Invalid request payload"
        | some params =>
          match client with
          | none => goPanic w
          | some _ =>
            let w := callDB w DBCall.GetAllUsers
            match env.GetAllUsers with
            | none => RespondWithError w StatusInternalServerError "Unable to get users"
            | some users =>
              match token.Claims.index "Subject" with
              | Value.str subject =>
                let userID := TrimSuffix (TrimPrefix subject "ObjectID(\"") "\")"
                if userID = "" then
                  RespondWithError w StatusUnauthorized "Unable to get user ID from JWT token"
                else
                  match env.ObjectIDFromHex userID with
                  | none =>
                    RespondWithError w StatusInternalServerError
                      "Unable to convert user ID to primitive.ObjectID"
                  | some userPrimitiveID =>
                    let userName :=
                      if params.Name = "" then fieldOfUser users userPrimitiveID User.Name
                      else params.Name
                    let userEmail :=
                      if params.Email = "" then fieldOfUser users userPrimitiveID User.Email
                      else params.Email
                    let hashed : Option String :=
                      if params.Password = "" then
                        some (fieldOfUser users userPrimitiveID User.Password)
                      else env.GenerateFromPassword params.Password
                    match hashed with
                    | none =>
                      RespondWithError w StatusInternalServerError "Unable to hash password"
                    | some hashedPassword =>
                      let w := callDB w
                        (DBCall.UpdateUser userID userName userEmail hashedPassword)
                      if env.UpdateUser userID userName userEmail hashedPassword then
                        RespondWithJSON w StatusOK (Payload.text "User updated successfully")
                      else
                        RespondWithError w StatusInternalServerError "Unable to update user"
              | _ => goPanic w
    | _ => goPanic w

/-- The handler `DeleteUserHandler`. -/
def DeleteUserHandler (env : Env) (r : Request) (w : World) : World :=
  match ExtractDBAndToken env w.Registry r with
  | (none, _, _) => w
  | (some token, _, client) =>
    match token.Claims.index "Issuer" with
    | Value.str issuer =>
      if issuer = "go-chat-application-refresh" then
        RespondWithError w StatusUnauthorized
          "Using JWT refresh token when JWT access token is required"
      else
        match token.Claims.index "Subject" with
        | Value.str subject =>
          let userID := TrimSuffix (TrimPrefix subject "ObjectID(\"") "\")"
          if userID = "" then
            RespondWithError w StatusUnauthorized "Unable to get user ID from JWT token"
          else
            match client with
            | none => goPanic w
            | some _ =>
              let w := callDB w (DBCall.DeleteUser userID)
              if env.DeleteUser userID then
                RespondWithJSON w StatusOK (Payload.text "User deleted successfully")
              else
                RespondWithError w StatusInternalServerError "Unable to delete user"
        | _ => goPanic w
    | _ => goPanic w

/-- The claims of the access token built by `LoginUserHandler`. -/
def accessClaims (env : Env) (accessTokenID : String) (user : User) : MapClaims :=
  [("ID", Value.str accessTokenID),
   ("Issuer", Value.str "go-chat-application-access"),
   ("Subject", Value.str (ObjectIDString user.ID)),
   ("IssuedAt", NewNumericDate (env.Now 0)),
   ("ExpiresAt", NewNumericDate (env.Now 1 + AccessExpiration)),
   ("Revoked", Value.bool false)]

/-- The claims of the refresh token built by `LoginUserHandler`. -/
def refreshClaims (env : Env) (refreshTokenID : String) (user : User) : MapClaims :=
  [("ID", Value.str refreshTokenID),
   ("Issuer", Value.str "go-chat-application-refresh"),
   ("Subject", Value.str (ObjectIDString user.ID)),
   ("IssuedAt", NewNumericDate (env.Now 2)),
   ("ExpiresAt", NewNumericDate (env.Now 3 + RefreshExpiration)),
   ("Revoked", Value.bool false)]

/-- The body of the loop of `LoginUserHandler` for the first user whose email
equals the one of the request. -/
def loginAs (env : Env) (params : Params) (user : User) (w : World) : World :=
  let w :=
    if env.CompareHashAndPassword user.Password params.Password then w
    else RespondWithError w StatusUnauthorized "Invalid password"
  match env.NewUUID 0 with
  | none => RespondWithError w StatusInternalServerError "Unable to generate access token"
  | some accessTokenID =>
    match env.NewUUID 1 with
    | none => RespondWithError w StatusInternalServerError "Unable to generate refresh token"
    | some refreshTokenID =>
      let token := NewWithClaims SigningMethod.HS256 (accessClaims env accessTokenID user)
      let refreshToken :=
        NewWithClaims SigningMethod.HS256 (refreshClaims env refreshTokenID user)
      match AddTokenToMap token w.Registry with
      | none => goPanic w
      | some tm =>
        match AddTokenToMap refreshToken tm with
        | none => goPanic { w with Registry := tm }
        | some tm =>
          let w := { w with Registry := tm }
          match env.eng.SignedString token env.JwtSecret with
          | none => RespondWithError w StatusInternalServerError "Unable to sign access token"
          | some signedToken =>
            match env.eng.SignedString refreshToken env.JwtSecret with
            | none =>
              RespondWithError w StatusInternalServerError "Unable to sign refresh token"
            | some signedRefreshToken =>
              RespondWithJSON w StatusOK
                (Payload.login (MapClaims.index (accessClaims env accessTokenID user) "Subject")
                  user.Name user.Email signedToken signedRefreshToken)

/-- The handler `LoginUserHandler`. -/
def LoginUserHandler (env : Env) (r : Request) (w : World) : World :=
  match r.Body with
  | none => RespondWithError w StatusBadRequest "Invalid request payload"
  | some params =>
    match r.ctxDB with
    | none => goPanic w
    | some _ =>
      let w := callDB w DBCall.GetAllUsers
      match env.GetAllUsers with
      | none => RespondWithError w StatusInternalServerError "Unable to get users"
      | some users =>
        match users.find? (fun user => decide (params.Email = user.Email)) with
        | some user => loginAs env params user w
        | none => RespondWithError w StatusUnauthorized "Invalid email"

/-! ## Notions used in the statements -/

/-- The registry invariant of `AddTokenToMap`: the keys are distinct and every
key maps to a token whose `ID` claim is that key. -/
def Keyed (tm : TokenMap) : Prop :=
  (tm.map Prod.fst).Nodup ∧ ∀ e ∈ tm, e.2.Claims.index "ID" = Value.str e.1

instance (tm : TokenMap) : Decidable (Keyed tm) := by
  unfold Keyed
  infer_instance

/-- A claim value after JSON encoding and decoding: a `*jwt.NumericDate` becomes
the number of its seconds, the other values are unchanged. -/
def Value.json : Value → Value
  | Value.date t => Value.num (t / Second)
  | v => v

/-- The claims of a token after JSON encoding and decoding. -/
def jsonClaims (m : MapClaims) : MapClaims :=
  m.map (fun e => (e.1, e.2.json))

/-- Verification of a string signed under `key` returns the signed claims: a
string produced by `SignedString` is not empty, decodes to the method and the
claims that were signed, and its signature verifies under `key`. -/
def SignatureEngine.RoundTrip (eng : SignatureEngine) (key : String) : Prop :=
  ∀ tok s, eng.SignedString tok key = some s →
    s ≠ "" ∧ ∃ wire, eng.ParseUnverified s = some wire ∧ wire.Method = tok.Method ∧
      wire.Claims = jsonClaims tok.Claims ∧ eng.Verify wire key = true

/-- The token `tok` carries the identifier, issuer and subject given, is not
revoked, and expires at `jwt.NewNumericDate(expiresAt)`. -/
def IssuedAs (tok : Token) (id issuer subject : String) (expiresAt : Int) : Prop :=
  tok.Claims.index "ID" = Value.str id ∧
  tok.Claims.index "Issuer" = Value.str issuer ∧
  tok.Claims.index "Subject" = Value.str subject ∧
  tok.Claims.index "Revoked" = Value.bool false ∧
  tok.Claims.index "ExpiresAt" = NewNumericDate expiresAt

instance (tok : Token) (id issuer subject : String) (expiresAt : Int) :
    Decidable (IssuedAs tok id issuer subject expiresAt) := by
  unfold IssuedAs
  infer_instance

/-- The registry after the calls `AddTokenToMap(tok)` for the tokens of the list,
in order, starting from `tm`; `none` when one of the calls panics. -/
def addTokens : TokenMap → List Token → Option TokenMap
  | tm, [] => some tm
  | tm, tok :: rest =>
    match AddTokenToMap tok tm with
    | none => none
    | some tm' => addTokens tm' rest

/-- The reconciliation by keyed lookup, as the specification words it: the entry
`TokenMap[id]` for the `ID` claim `id` of the parsed token when `id` is
registered, the parsed token otherwise. -/
def keyedSelect (tm : TokenMap) (token : Token) : Token :=
  match token.Claims.index "ID" with
  | Value.str id =>
    match TokenMap.lookup tm id with
    | some tok => tok
    | none => token
  | _ => token

/-! ## Concrete inputs -/

/-- An engine given by the table of the strings it has signed under `secret`. -/
def tableEngine (secret : String) (table : List (String × Token)) : SignatureEngine where
  SignedString tok key :=
    if key = secret then (table.find? (fun e => decide (e.2 = tok))).map Prod.fst else none
  ParseUnverified s :=
    (table.find? (fun e => decide (e.1 = s))).map
      (fun e => { Raw := s, Method := e.2.Method, Claims := jsonClaims e.2.Claims,
                  Valid := false })
  Verify _ key := decide (key = secret)

/-- A stored user. -/
def demoUser : User :=
  { ID := { hex := "65a1b2c3d4e5f60718293a4b" }, Name := "Ada", Email := "u@x.com",
    Password := "hash(secret)", CreatedAt := 0, UpdatedAt := 0 }

/-- An environment whose engine signs nothing: one stored user, the clock at
zero, the identifiers `a1` and `r1`. -/
def demoEnv0 : Env :=
  { JwtSecret := "k3y"
    eng := tableEngine "k3y" []
    Now := fun _ => 0
    NewUUID := fun k => if k = 0 then some "a1" else if k = 1 then some "r1" else none
    CompareHashAndPassword := fun hash password =>
      decide (hash = "hash(" ++ password ++ ")")
    GenerateFromPassword := fun password => some ("hash(" ++ password ++ ")")
    ObjectIDFromHex := fun h => if h.length = 24 then some { hex := h } else none
    GetAllUsers := some [demoUser]
    CreateUser := fun name email password =>
      some { ID := { hex := "65a1b2c3d4e5f60718293a4c" }, Name := name, Email := email,
             Password := "hash(" ++ password ++ ")", CreatedAt := 0, UpdatedAt := 0 }
    UpdateUser := fun _ _ _ _ => true
    DeleteUser := fun _ => true }

/-- The access token a login of `demoUser` builds in `demoEnv0`. -/
def demoAccess : Token :=
  NewWithClaims SigningMethod.HS256 (accessClaims demoEnv0 "a1" demoUser)

/-- The refresh token a login of `demoUser` builds in `demoEnv0`. -/
def demoRefresh : Token :=
  NewWithClaims SigningMethod.HS256 (refreshClaims demoEnv0 "r1" demoUser)

/-- The environment `demoEnv0` with an engine that signs the two login tokens. -/
def demoEnv : Env :=
  { demoEnv0 with
    eng := tableEngine "k3y" [("hdr.acc.sig", demoAccess), ("hdr.ref.sig", demoRefresh)] }

/-- The environment `demoEnv` two hours later. -/
def demoEnvLater : Env :=
  { demoEnv with Now := fun _ => 2 * Hour }

/-- The database client of the process. -/
def demoDB : MongoDBClient := { DBName := "chat" }

/-- The state of a fresh process. -/
def World.fresh : World :=
  { Registry := [], Responses := [], DBCalls := [], Panicked := false }

/-- A login request with the right password. -/
def loginRequest : Request :=
  { Authorization := "",
    Body := some { Name := "", Email := "u@x.com", Password := "secret" },
    ctxDB := some demoDB }

/-- A login request with a wrong password. -/
def wrongPasswordRequest : Request :=
  { Authorization := "",
    Body := some { Name := "", Email := "u@x.com", Password := "guess" },
    ctxDB := some demoDB }

/-- A request without `Authorization` header. -/
def anonymousRequest : Request :=
  { Authorization := "",
    Body := some { Name := "Eve", Email := "e@x.com", Password := "pw" },
    ctxDB := some demoDB }

/-- A request that presents the access token. -/
def accessRequest : Request :=
  { Authorization := "Bearer hdr.acc.sig",
    Body := some { Name := "Ada L", Email := "", Password := "" },
    ctxDB := some demoDB }

/-- The access token of the login with its `Revoked` claim set. -/
def demoRevoked : Token :=
  { demoAccess with
    Claims := [("ID", Value.str "a1"), ("Issuer", Value.str "go-chat-application-access"),
               ("Subject", Value.str (ObjectIDString demoUser.ID)),
               ("Revoked", Value.bool true)] }

/-- The access token as `jwt.Parse` returns it from its signed string. -/
def demoWire : Token :=
  { Raw := "hdr.acc.sig", Method := SigningMethod.HS256,
    Claims := jsonClaims demoAccess.Claims, Valid := true }

/-- A request that presents the refresh token. -/
def refreshRequest : Request :=
  { Authorization := "Bearer hdr.ref.sig",
    Body := some { Name := "Ada L", Email := "", Password := "" },
    ctxDB := some demoDB }

/-- A request that presents the access token under the scheme `Basic`. -/
def basicRequest : Request :=
  { Authorization := "Basic hdr.acc.sig",
    Body := some { Name := "Ada L", Email := "", Password := "" },
    ctxDB := some demoDB }

/-- A request whose bearer token contains a space. -/
def spacedRequest : Request :=
  { Authorization := "Bearer abc def", Body := none, ctxDB := some demoDB }

/-- A request whose header ends at its first space. -/
def truncatedRequest : Request :=
  { Authorization := "Bearerxx ", Body := none, ctxDB := some demoDB }

/-! ## Lemmas -/

theorem bearer_data (t : String) :
    ("Bearer " ++ t).data = 'B' :: 'e' :: 'a' :: 'r' :: 'e' :: 'r' :: ' ' :: t.data := by
  simp [String.data_append]

theorem ExtractJWTTokenFromHeader_bearer (r : Request) (t : String)
    (hr : r.Authorization = "Bearer " ++ t) (ht : t ≠ "") :
    ExtractJWTTokenFromHeader r = t := by
  have hd := bearer_data t
  have hne : ("Bearer " ++ t) ≠ "" := by
    intro h
    have := congrArg String.data h
    rw [hd] at this
    simp at this
  have htd : t.data ≠ [] := by
    intro h
    apply ht
    cases t
    simp_all
  have hlen : ("Bearer " ++ t).utf8ByteSize > 7 := by
    have h1 : ("Bearer " ++ t).utf8ByteSize = String.utf8Len ("Bearer " ++ t).data := rfl
    rw [h1, hd]
    have : 0 < String.utf8Len t.data := by
      rcases Nat.eq_zero_or_pos (String.utf8Len t.data) with h | h
      · exact absurd (String.utf8Len_eq_zero.1 h) htd
      · exact h
    simp only [String.utf8Len_cons]
    have e : ∀ c : Char, 1 ≤ c.utf8Size := fun c => Char.utf8Size_pos c
    have := e 'B'; have := e 'e'; have := e 'a'; have := e 'r'; have := e ' '
    omega
  have hmem : ' ' ∈ ("Bearer " ++ t).data := by
    rw [hd]; simp
  have hsplit : SplitN2 ("Bearer " ++ t) = ["Bearer", t] := by
    unfold SplitN2
    rw [hd]
    simp [List.span, List.span.loop]
  unfold ExtractJWTTokenFromHeader
  simp only [hr]
  rw [if_neg hne, if_pos ⟨hlen, hmem⟩, hsplit]


theorem rangeTokenMap_absent (tm : TokenMap) (parsed : Token)
    (h : ∀ e ∈ tm, e.2.Claims.index "ID" ≠ parsed.Claims.index "ID") :
    rangeTokenMap tm parsed = parsed := by
  induction tm with
  | nil => rfl
  | cons e rest ih =>
    obtain ⟨k, t⟩ := e
    have h1 : t.Claims.index "ID" ≠ parsed.Claims.index "ID" := h (k, t) (by simp)
    simp only [rangeTokenMap, if_neg h1]
    exact ih (fun e he => h e (List.mem_cons_of_mem _ he))

theorem Keyed_tail {e : String × Token} {rest : TokenMap} (h : Keyed (e :: rest)) :
    Keyed rest := by
  obtain ⟨hn, hid⟩ := h
  refine ⟨?_, fun e he => hid e (List.mem_cons_of_mem _ he)⟩
  simp only [List.map_cons, List.nodup_cons] at hn
  exact hn.2

theorem rangeTokenMap_keyed (tm : TokenMap) (parsed tok : Token) (i : String)
    (hk : Keyed tm) (hid : parsed.Claims.index "ID" = Value.str i)
    (hl : TokenMap.lookup tm i = some tok) : rangeTokenMap tm parsed = tok := by
  induction tm with
  | nil => simp [TokenMap.lookup] at hl
  | cons e rest ih =>
    obtain ⟨k, t⟩ := e
    have ht : t.Claims.index "ID" = Value.str k := hk.2 (k, t) (by simp)
    by_cases hki : k = i
    · subst hki
      simp only [TokenMap.lookup, if_true, Option.some.injEq] at hl
      simp only [rangeTokenMap, ht, hid, if_true]
      exact hl
    · have hne : t.Claims.index "ID" ≠ parsed.Claims.index "ID" := by
        rw [ht, hid]
        intro h
        exact hki (Value.str.inj h)
      simp only [TokenMap.lookup, if_neg hki] at hl
      simp only [rangeTokenMap, if_neg hne]
      exact ih (Keyed_tail hk) hl

theorem rangeTokenMap_keyed_none (tm : TokenMap) (parsed : Token) (i : String)
    (hk : Keyed tm) (hid : parsed.Claims.index "ID" = Value.str i)
    (hl : TokenMap.lookup tm i = none) : rangeTokenMap tm parsed = parsed := by
  apply rangeTokenMap_absent
  intro e he
  induction tm with
  | nil => simp at he
  | cons e' rest ih =>
    obtain ⟨k, t⟩ := e'
    by_cases hki : k = i
    · simp [TokenMap.lookup, hki] at hl
    · simp only [TokenMap.lookup, if_neg hki] at hl
      rcases List.mem_cons.1 he with h | h
      · subst h
        rw [hk.2 (k, t) (by simp), hid]
        intro h
        exact hki (Value.str.inj h)
      · exact ih (Keyed_tail hk) hl h

theorem lookup_assign_same (tm : TokenMap) (id : String) (token : Token) :
    TokenMap.lookup (TokenMap.assign tm id token) id = some token := by
  induction tm with
  | nil => simp [TokenMap.assign, TokenMap.lookup]
  | cons e rest ih =>
    obtain ⟨k, t⟩ := e
    by_cases hk : k = id
    · simp [TokenMap.assign, TokenMap.lookup, hk]
    · simp [TokenMap.assign, TokenMap.lookup, hk, ih]

theorem lookup_assign_other (tm : TokenMap) (id k : String) (token : Token) (h : k ≠ id) :
    TokenMap.lookup (TokenMap.assign tm id token) k = TokenMap.lookup tm k := by
  induction tm with
  | nil =>
    have h' : ¬ id = k := fun e => h e.symm
    simp [TokenMap.assign, TokenMap.lookup, h']
  | cons e rest ih =>
    obtain ⟨k', t⟩ := e
    by_cases hk : k' = id
    · subst hk
      simp [TokenMap.assign, TokenMap.lookup, Ne.symm h]
    · by_cases hk2 : k' = k
      · subst hk2
        simp [TokenMap.assign, TokenMap.lookup, hk]
      · simp [TokenMap.assign, TokenMap.lookup, hk, hk2, ih]

theorem keys_assign (tm : TokenMap) (id k : String) (token : Token)
    (h : k ∈ (TokenMap.assign tm id token).map Prod.fst) :
    k = id ∨ k ∈ tm.map Prod.fst := by
  induction tm with
  | nil =>
    simp only [TokenMap.assign, List.map_cons, List.map_nil, List.mem_singleton] at h
    exact Or.inl h
  | cons e rest ih =>
    obtain ⟨k', t⟩ := e
    by_cases hk : k' = id
    · simp only [TokenMap.assign, if_pos hk, List.map_cons, List.mem_cons] at h
      rcases h with h | h
      · exact Or.inl h
      · exact Or.inr (by simp [h])
    · simp only [TokenMap.assign, if_neg hk, List.map_cons, List.mem_cons] at h
      rcases h with h | h
      · exact Or.inr (by simp [h])
      · rcases ih h with h' | h'
        · exact Or.inl h'
        · exact Or.inr (by simp only [List.map_cons, List.mem_cons]; exact Or.inr h')

theorem Keyed_nil : Keyed [] := by
  constructor
  · simp
  · intro e he
    simp at he

theorem Keyed_assign (tm : TokenMap) (id : String) (token : Token) (hk : Keyed tm)
    (hid : token.Claims.index "ID" = Value.str id) : Keyed (TokenMap.assign tm id token) := by
  induction tm with
  | nil =>
    constructor
    · simp [TokenMap.assign]
    · intro e he
      simp only [TokenMap.assign, List.mem_singleton] at he
      subst he
      exact hid
  | cons e rest ih =>
    obtain ⟨k, t⟩ := e
    have hrest := ih (Keyed_tail hk)
    obtain ⟨hn, hc⟩ := hk
    simp only [List.map_cons, List.nodup_cons] at hn
    by_cases hki : k = id
    · subst hki
      simp only [TokenMap.assign, if_true]
      constructor
      · simp only [List.map_cons, List.nodup_cons]
        exact hn
      · intro e he
        rcases List.mem_cons.1 he with h | h
        · subst h
          exact hid
        · exact hc e (List.mem_cons_of_mem _ h)
    · simp only [TokenMap.assign, if_neg hki]
      constructor
      · simp only [List.map_cons, List.nodup_cons]
        refine ⟨?_, hrest.1⟩
        intro hmem
        rcases keys_assign rest id k token hmem with h | h
        · exact hki h
        · exact hn.1 h
      · intro e he
        rcases List.mem_cons.1 he with h | h
        · subst h
          exact hc (k, t) (by simp)
        · exact hrest.2 e h

theorem Keyed_AddTokenToMap (tm tm' : TokenMap) (token : Token) (hk : Keyed tm)
    (h : AddTokenToMap token tm = some tm') : Keyed tm' := by
  unfold AddTokenToMap at h
  split at h
  · rename_i id hid
    simp only [Option.some.injEq] at h
    subst h
    exact Keyed_assign tm id token hk hid
  · simp at h

theorem Validate_accessClaims (now : Int) (env : Env) (a : String) (u : User) :
    Validate now (jsonClaims (accessClaims env a u)) = true := by
  simp [Validate, parseNumericDate, jsonClaims, accessClaims, MapClaims.lookup, NewNumericDate,
    Value.json]

theorem Validate_refreshClaims (now : Int) (env : Env) (b : String) (u : User) :
    Validate now (jsonClaims (refreshClaims env b u)) = true := by
  simp [Validate, parseNumericDate, jsonClaims, refreshClaims, MapClaims.lookup, NewNumericDate,
    Value.json]

theorem ParseAndValidate_signed (eng : SignatureEngine) (secret : String) (now : Int)
    (tok : Token) (s : String) (hrt : eng.RoundTrip secret)
    (hm : tok.Method.isHMAC = true) (hv : Validate now (jsonClaims tok.Claims) = true)
    (hs : eng.SignedString tok secret = some s) :
    s ≠ "" ∧ ∃ parsed, ParseAndValidateJWTToken eng secret now s = some parsed ∧
      parsed.Claims = jsonClaims tok.Claims := by
  obtain ⟨hne, wire, hw, hmeth, hcl, hver⟩ := hrt tok s hs
  refine ⟨hne, { wire with Valid := true }, ?_, hcl⟩
  unfold ParseAndValidateJWTToken Parse
  simp [hne, hw, hmeth, hm, hver, hcl, hv]

theorem login_success (env : Env) (r : Request) (w : World) (params : Params)
    (db : MongoDBClient) (users : List User) (u : User) (a b sA sR : String)
    (hbody : r.Body = some params) (hdb : r.ctxDB = some db)
    (husers : env.GetAllUsers = some users)
    (hu : users.find? (fun user => decide (params.Email = user.Email)) = some u)
    (hpw : env.CompareHashAndPassword u.Password params.Password = true)
    (ha : env.NewUUID 0 = some a) (hb : env.NewUUID 1 = some b)
    (hsA : env.eng.SignedString (NewWithClaims SigningMethod.HS256 (accessClaims env a u))
      env.JwtSecret = some sA)
    (hsR : env.eng.SignedString (NewWithClaims SigningMethod.HS256 (refreshClaims env b u))
      env.JwtSecret = some sR) :
    (LoginUserHandler env r w).Responses = w.Responses ++
      [(StatusOK, Payload.login (Value.str (ObjectIDString u.ID)) u.Name u.Email sA sR)] := by
  unfold LoginUserHandler
  simp only [hbody, hdb, husers, hu]
  unfold loginAs
  simp only [ha, hb, hpw, if_true]
  have h1 : ∀ w' : World,
      AddTokenToMap (NewWithClaims SigningMethod.HS256 (accessClaims env a u)) w'.Registry =
        some (TokenMap.assign w'.Registry a
          (NewWithClaims SigningMethod.HS256 (accessClaims env a u))) := by
    intro w'; rfl
  have h2 : ∀ tm : TokenMap,
      AddTokenToMap (NewWithClaims SigningMethod.HS256 (refreshClaims env b u)) tm =
        some (TokenMap.assign tm b
          (NewWithClaims SigningMethod.HS256 (refreshClaims env b u))) := by
    intro tm; rfl
  simp only [h1, h2, hsA, hsR]
  rfl

theorem demo_roundTrip : demoEnv.eng.RoundTrip demoEnv.JwtSecret := by
  intro tok s h
  by_cases h1 : demoAccess = tok
  · subst h1
    have hsig : demoEnv.eng.SignedString demoAccess demoEnv.JwtSecret = some "hdr.acc.sig" := by
      decide
    rw [hsig] at h
    have hs : s = "hdr.acc.sig" := (Option.some.inj h).symm
    subst hs
    exact ⟨by decide, { demoWire with Valid := false }, by decide, by decide, by decide,
      by decide⟩
  · by_cases h2 : demoRefresh = tok
    · subst h2
      have hsig : demoEnv.eng.SignedString demoRefresh demoEnv.JwtSecret =
          some "hdr.ref.sig" := by
        decide
      rw [hsig] at h
      have hs : s = "hdr.ref.sig" := (Option.some.inj h).symm
      subst hs
      exact ⟨by decide,
        { Raw := "hdr.ref.sig", Method := SigningMethod.HS256,
          Claims := jsonClaims demoRefresh.Claims, Valid := false },
        by decide, by decide, by decide, by decide⟩
    · exfalso
      have hnone : demoEnv.eng.SignedString tok demoEnv.JwtSecret = none := by
        simp [demoEnv, demoEnv0, tableEngine, List.find?, h1, h2]
      rw [hnone] at h
      cases h

theorem ExtractDBAndToken_parsed (env : Env) (tm : TokenMap) (r : Request) (parsed : Token)
    (hp : ParseAndValidateJWTToken env.eng env.JwtSecret (env.Now 0)
      (ExtractJWTTokenFromHeader r) = some parsed) :
    ExtractDBAndToken env tm r =
      if (rangeTokenMap tm parsed).Claims.index "Revoked" = Value.bool true then (none, "", none)
      else
        match r.ctxDB with
        | none => (none, "", none)
        | some client => (some (rangeTokenMap tm parsed), ExtractJWTTokenFromHeader r, some client) := by
  have hne : ExtractJWTTokenFromHeader r ≠ "" := by
    intro h
    rw [h] at hp
    simp [ParseAndValidateJWTToken] at hp
  unfold ExtractDBAndToken
  simp only [if_neg hne, hp]

theorem login_world (env : Env) (r : Request) (w : World) (params : Params)
    (db : MongoDBClient) (users : List User) (u : User) (a b : String)
    (hbody : r.Body = some params) (hdb : r.ctxDB = some db)
    (husers : env.GetAllUsers = some users)
    (hu : users.find? (fun user => decide (params.Email = user.Email)) = some u)
    (ha : env.NewUUID 0 = some a) (hb : env.NewUUID 1 = some b) :
    (LoginUserHandler env r w).Registry =
      TokenMap.assign
        (TokenMap.assign w.Registry a (NewWithClaims SigningMethod.HS256 (accessClaims env a u)))
        b (NewWithClaims SigningMethod.HS256 (refreshClaims env b u)) := by
  unfold LoginUserHandler
  simp only [hbody, hdb, husers, hu]
  unfold loginAs
  simp only [ha, hb]
  have h1 : ∀ w' : World, AddTokenToMap (NewWithClaims SigningMethod.HS256 (accessClaims env a u)) w'.Registry
      = some (TokenMap.assign w'.Registry a (NewWithClaims SigningMethod.HS256 (accessClaims env a u))) := by
    intro w'; rfl
  have h2 : ∀ tm : TokenMap, AddTokenToMap (NewWithClaims SigningMethod.HS256 (refreshClaims env b u)) tm
      = some (TokenMap.assign tm b (NewWithClaims SigningMethod.HS256 (refreshClaims env b u))) := by
    intro tm; rfl
  simp only [h1, h2]
  split <;> split <;> (try split) <;> rfl

theorem login_unknown_email (env : Env) (r : Request) (w : World)
    (h : ∀ params users, r.Body = some params → env.GetAllUsers = some users →
      ∀ user ∈ users, params.Email ≠ user.Email) :
    (LoginUserHandler env r w).Registry = w.Registry := by
  unfold LoginUserHandler
  cases hbody : r.Body with
  | none => rfl
  | some params =>
    cases hdb : r.ctxDB with
    | none => rfl
    | some db =>
      cases husers : env.GetAllUsers with
      | none => rfl
      | some users =>
        have hnone : users.find? (fun user => decide (params.Email = user.Email)) = none := by
          rw [List.find?_eq_none]
          intro user hmem
          simpa using h params users hbody husers user hmem
        simp only [hnone]
        rfl

theorem Keyed_addTokens (tokens : List Token) (tm tm' : TokenMap) (hk : Keyed tm)
    (h : addTokens tm tokens = some tm') : Keyed tm' := by
  induction tokens generalizing tm with
  | nil =>
    simp only [addTokens, Option.some.injEq] at h
    subst h
    exact hk
  | cons tok rest ih =>
    simp only [addTokens] at h
    cases hadd : AddTokenToMap tok tm with
    | none => simp [hadd] at h
    | some tm1 =>
      simp only [hadd] at h
      exact ih tm1 (Keyed_AddTokenToMap tm tm1 tok hk hadd) h

theorem lookup_of_mem (tm : TokenMap) (k : String) (t : Token)
    (hn : (tm.map Prod.fst).Nodup) (hm : (k, t) ∈ tm) : TokenMap.lookup tm k = some t := by
  induction tm with
  | nil => simp at hm
  | cons e rest ih =>
    obtain ⟨k', t'⟩ := e
    simp only [List.map_cons, List.nodup_cons] at hn
    rcases List.mem_cons.1 hm with h | h
    · cases h
      simp [TokenMap.lookup]
    · have hne : k' ≠ k := by
        intro hkk
        subst hkk
        exact hn.1 (List.mem_map_of_mem Prod.fst h)
      simp only [TokenMap.lookup, if_neg hne]
      exact ih hn.2 h

theorem mem_of_lookup (tm : TokenMap) (k : String) (t : Token)
    (h : TokenMap.lookup tm k = some t) : (k, t) ∈ tm := by
  induction tm with
  | nil => simp [TokenMap.lookup] at h
  | cons e rest ih =>
    obtain ⟨k', t'⟩ := e
    by_cases hk : k' = k
    · subst hk
      simp only [TokenMap.lookup, if_true, Option.some.injEq] at h
      subst h
      simp
    · simp only [TokenMap.lookup, if_neg hk] at h
      exact List.mem_cons_of_mem _ (ih h)

theorem Keyed_perm (tm tm' : TokenMap) (hp : List.Perm tm' tm) (hk : Keyed tm) : Keyed tm' := by
  constructor
  · exact ((hp.map Prod.fst).nodup_iff).2 hk.1
  · intro e he
    exact hk.2 e (hp.mem_iff.1 he)

theorem lookup_perm (tm tm' : TokenMap) (k : String) (hp : List.Perm tm' tm) (hk : Keyed tm) :
    TokenMap.lookup tm' k = TokenMap.lookup tm k := by
  have hk' := Keyed_perm tm tm' hp hk
  cases h : TokenMap.lookup tm k with
  | some t =>
    exact lookup_of_mem tm' k t hk'.1 (hp.mem_iff.2 (mem_of_lookup tm k t h))
  | none =>
    cases h' : TokenMap.lookup tm' k with
    | none => rfl
    | some t =>
      have := lookup_of_mem tm k t hk.1 (hp.mem_iff.1 (mem_of_lookup tm' k t h'))
      rw [h] at this
      cases this

theorem rangeTokenMap_eq_keyedSelect (tm : TokenMap) (parsed : Token) (hk : Keyed tm) :
    rangeTokenMap tm parsed = keyedSelect tm parsed := by
  unfold keyedSelect
  cases hid : parsed.Claims.index "ID" with
  | str id =>
    cases hl : TokenMap.lookup tm id with
    | some tok =>
      simp only [hl]
      exact rangeTokenMap_keyed tm parsed tok id hk hid hl
    | none =>
      simp only [hl]
      exact rangeTokenMap_keyed_none tm parsed id hk hid hl
  | null =>
    apply rangeTokenMap_absent
    intro e he
    rw [hk.2 e he, hid]
    simp
  | bool b =>
    apply rangeTokenMap_absent
    intro e he
    rw [hk.2 e he, hid]
    simp
  | num n =>
    apply rangeTokenMap_absent
    intro e he
    rw [hk.2 e he, hid]
    simp
  | date d =>
    apply rangeTokenMap_absent
    intro e he
    rw [hk.2 e he, hid]
    simp

/-! ## The claims -/

/-- C1 (the code departs from the claim): a login with the email of a stored user
and a wrong password has its bcrypt comparison fail and writes the 401 response
`Invalid password`, yet the handler goes on: both tokens are added to the
registry, which differs from the registry before the call, and the signed
strings are sent. -/
theorem C1_wrong_password_still_registers :
    demoEnv.CompareHashAndPassword demoUser.Password "guess" = false ∧
    (LoginUserHandler demoEnv wrongPasswordRequest World.fresh).Registry =
      [("a1", demoAccess), ("r1", demoRefresh)] ∧
    (LoginUserHandler demoEnv wrongPasswordRequest World.fresh).Registry ≠
      World.fresh.Registry ∧
    (LoginUserHandler demoEnv wrongPasswordRequest World.fresh).Responses =
      [(StatusUnauthorized, Payload.error "Invalid password"),
       (StatusOK, Payload.login (Value.str (ObjectIDString demoUser.ID)) "Ada" "u@x.com"
          "hdr.acc.sig" "hdr.ref.sig")] := by
  decide

/-- C2 (refuted as stated): the bearer string of the access token parses and
verifies, no entry of the registry carries its `ID` claim, and `ExtractDBAndToken`
returns the token decoded from the wire instead of `(nil, "", nil)`. -/
theorem C2_unregistered_token_is_accepted :
    ParseAndValidateJWTToken demoEnv.eng demoEnv.JwtSecret (demoEnv.Now 0)
      (ExtractJWTTokenFromHeader accessRequest) = some demoWire ∧
    (∀ e ∈ [("r1", demoRefresh)], e.2.Claims.index "ID" ≠ demoWire.Claims.index "ID") ∧
    ExtractDBAndToken demoEnv [("r1", demoRefresh)] accessRequest =
      (some demoWire, "hdr.acc.sig", some demoDB) ∧
    ExtractDBAndToken demoEnv [("r1", demoRefresh)] accessRequest ≠ (none, "", none) := by
  decide

/-- C2 (amended): when the bearer string parses and verifies and no entry of the
registry carries the `ID` claim of the parsed token, `ExtractDBAndToken` decides
on the parsed token: it returns `(nil, "", nil)` when the `Revoked` claim of the
parsed token is true or the context holds no database client, and otherwise the
parsed token, the bearer string and the client. -/
theorem C2_unregistered_token_falls_back (env : Env) (tm : TokenMap) (r : Request)
    (parsed : Token)
    (hp : ParseAndValidateJWTToken env.eng env.JwtSecret (env.Now 0)
      (ExtractJWTTokenFromHeader r) = some parsed)
    (habsent : ∀ e ∈ tm, e.2.Claims.index "ID" ≠ parsed.Claims.index "ID") :
    ExtractDBAndToken env tm r =
      match r.ctxDB with
      | none => (none, "", none)
      | some client =>
        if parsed.Claims.index "Revoked" = Value.bool true then (none, "", none)
        else (some parsed, ExtractJWTTokenFromHeader r, some client) := by
  rw [ExtractDBAndToken_parsed env tm r parsed hp, rangeTokenMap_absent tm parsed habsent]
  cases r.ctxDB with
  | none => simp
  | some client => rfl

/-- Witness of C2 (amended): the access token against a registry that holds only
the refresh token. -/
theorem C2_unregistered_token_falls_back_witness :
    ExtractDBAndToken demoEnv [("r1", demoRefresh)] accessRequest =
      match accessRequest.ctxDB with
      | none => (none, "", none)
      | some client =>
        if demoWire.Claims.index "Revoked" = Value.bool true then (none, "", none)
        else (some demoWire, ExtractJWTTokenFromHeader accessRequest, some client) :=
  C2_unregistered_token_falls_back demoEnv [("r1", demoRefresh)] accessRequest demoWire
    (by decide) (by decide)

/-- C3: in a registry that satisfies the registry invariant, when the bearer
string parses and verifies with `ID` claim `i` and the entry `TokenMap[i]` has its
`Revoked` claim equal to true, `ExtractDBAndToken` returns `(nil, "", nil)`; the
`Revoked` claim of the parsed token plays no part. -/
theorem C3_revoked_entry_is_rejected (env : Env) (tm : TokenMap) (r : Request)
    (parsed tok : Token) (i : String) (hk : Keyed tm)
    (hp : ParseAndValidateJWTToken env.eng env.JwtSecret (env.Now 0)
      (ExtractJWTTokenFromHeader r) = some parsed)
    (hi : parsed.Claims.index "ID" = Value.str i)
    (hl : TokenMap.lookup tm i = some tok)
    (hr : tok.Claims.index "Revoked" = Value.bool true) :
    ExtractDBAndToken env tm r = (none, "", none) := by
  rw [ExtractDBAndToken_parsed env tm r parsed hp, rangeTokenMap_keyed tm parsed tok i hk hi hl,
    if_pos hr]

/-- Witness of C3: the wire token carries `Revoked = false`, the registry entry
`Revoked = true`. -/
theorem C3_revoked_entry_is_rejected_witness :
    demoWire.Claims.index "Revoked" = Value.bool false ∧
    ExtractDBAndToken demoEnv [("a1", demoRevoked), ("r1", demoRefresh)] accessRequest =
      (none, "", none) :=
  ⟨by decide,
   C3_revoked_entry_is_rejected demoEnv [("a1", demoRevoked), ("r1", demoRefresh)]
     accessRequest demoWire demoRevoked "a1" (by decide) (by decide) (by decide) (by decide)
     (by decide)⟩

/-- C4 (the code departs from the claim): the access token issued by a login at
clock reading zero carries `ExpiresAt` one hour later; two hours later its signed
string still passes `ParseAndValidateJWTToken`, and `ExtractDBAndToken` returns the
registered token. -/
theorem C4_expired_token_is_accepted :
    (LoginUserHandler demoEnv loginRequest World.fresh).Registry =
      [("a1", demoAccess), ("r1", demoRefresh)] ∧
    demoAccess.Claims.index "ExpiresAt" = Value.date Hour ∧
    Hour ≤ demoEnvLater.Now 0 ∧
    ParseAndValidateJWTToken demoEnvLater.eng demoEnvLater.JwtSecret (demoEnvLater.Now 0)
      (ExtractJWTTokenFromHeader accessRequest) = some demoWire ∧
    ExtractDBAndToken demoEnvLater (LoginUserHandler demoEnv loginRequest World.fresh).Registry
      accessRequest = (some demoAccess, "hdr.acc.sig", some demoDB) := by
  decide

/-- C5: in a registry that satisfies the registry invariant, when the bearer
string parses and verifies with `ID` claim `i`, `i` is registered and
`ExtractDBAndToken` returns a token, that token is the entry `TokenMap[i]` and the
returned string is the one `ExtractJWTTokenFromHeader` extracted. -/
theorem C5_returns_registry_entry (env : Env) (tm : TokenMap) (r : Request)
    (parsed tok t : Token) (i s : String) (c : Option MongoDBClient) (hk : Keyed tm)
    (hp : ParseAndValidateJWTToken env.eng env.JwtSecret (env.Now 0)
      (ExtractJWTTokenFromHeader r) = some parsed)
    (hi : parsed.Claims.index "ID" = Value.str i)
    (hl : TokenMap.lookup tm i = some tok)
    (h : ExtractDBAndToken env tm r = (some t, s, c)) :
    t = tok ∧ s = ExtractJWTTokenFromHeader r := by
  rw [ExtractDBAndToken_parsed env tm r parsed hp,
    rangeTokenMap_keyed tm parsed tok i hk hi hl] at h
  split at h
  · simp at h
  · cases hdb : r.ctxDB with
    | none => simp [hdb] at h
    | some client =>
      simp only [hdb, Prod.mk.injEq, Option.some.injEq] at h
      exact ⟨h.1.symm, h.2.1.symm⟩

/-- Witness of C5: the registry entry differs from the token decoded from the
wire, and the entry is what is returned. -/
theorem C5_returns_registry_entry_witness :
    ExtractDBAndToken demoEnv [("a1", demoAccess), ("r1", demoRefresh)] accessRequest =
      (some demoAccess, "hdr.acc.sig", some demoDB) ∧
    demoAccess ≠ demoWire ∧
    (demoAccess = demoAccess ∧ "hdr.acc.sig" = ExtractJWTTokenFromHeader accessRequest) :=
  ⟨by decide, by decide,
   C5_returns_registry_entry demoEnv [("a1", demoAccess), ("r1", demoRefresh)] accessRequest
     demoWire demoAccess demoAccess "a1" "hdr.acc.sig" (some demoDB) (by decide) (by decide)
     (by decide) (by decide) (by decide)⟩

/-- C6 (refuted as stated): on a request without `Authorization` header
`ExtractDBAndToken` returns a nil token, and `UpdateUserHandler` and
`DeleteUserHandler` write no response at all, hence none with status 401. -/
theorem C6_nil_token_writes_nothing :
    (ExtractDBAndToken demoEnv World.fresh.Registry anonymousRequest).1 = none ∧
    (UpdateUserHandler demoEnv anonymousRequest World.fresh).Responses = [] ∧
    (DeleteUserHandler demoEnv anonymousRequest World.fresh).Responses = [] ∧
    (¬ ∃ p, (StatusUnauthorized, p) ∈
      (UpdateUserHandler demoEnv anonymousRequest World.fresh).Responses) ∧
    (¬ ∃ p, (StatusUnauthorized, p) ∈
      (DeleteUserHandler demoEnv anonymousRequest World.fresh).Responses) := by
  have hu : (UpdateUserHandler demoEnv anonymousRequest World.fresh).Responses = [] := by
    decide
  have hd : (DeleteUserHandler demoEnv anonymousRequest World.fresh).Responses = [] := by
    decide
  refine ⟨by decide, hu, hd, ?_, ?_⟩
  · rw [hu]
    simp
  · rw [hd]
    simp

/-- C6 (amended): on every request on which `ExtractDBAndToken` returns a nil
token, `UpdateUserHandler` and `DeleteUserHandler` each return at once: they write
no response, call no database method and leave the registry as it is. -/
theorem C6_nil_token_returns_at_once (env : Env) (r : Request) (w : World)
    (h : (ExtractDBAndToken env w.Registry r).1 = none) :
    UpdateUserHandler env r w = w ∧ DeleteUserHandler env r w = w := by
  rcases hE : ExtractDBAndToken env w.Registry r with ⟨t, s, c⟩
  rw [hE] at h
  simp only at h
  subst h
  constructor
  · simp only [UpdateUserHandler, hE]
  · simp only [DeleteUserHandler, hE]

/-- Witness of C6 (amended): the request without `Authorization` header. -/
theorem C6_nil_token_returns_at_once_witness :
    UpdateUserHandler demoEnv anonymousRequest World.fresh = World.fresh ∧
    DeleteUserHandler demoEnv anonymousRequest World.fresh = World.fresh :=
  C6_nil_token_returns_at_once demoEnv anonymousRequest World.fresh (by decide)

/-- C7: on every request on which `ExtractDBAndToken` returns a token whose
`Issuer` claim is `go-chat-application-refresh`, `UpdateUserHandler` and
`DeleteUserHandler` write one response, with status 401 and the message
`Using JWT refresh token when JWT access token is required`, and call no
database method. -/
theorem C7_refresh_token_is_refused (env : Env) (r : Request) (w : World) (tok : Token)
    (h : (ExtractDBAndToken env w.Registry r).1 = some tok)
    (hiss : tok.Claims.index "Issuer" = Value.str "go-chat-application-refresh") :
    (UpdateUserHandler env r w).Responses = w.Responses ++
      [(StatusUnauthorized,
        Payload.error "Using JWT refresh token when JWT access token is required")] ∧
    (UpdateUserHandler env r w).DBCalls = w.DBCalls ∧
    (DeleteUserHandler env r w).Responses = w.Responses ++
      [(StatusUnauthorized,
        Payload.error "Using JWT refresh token when JWT access token is required")] ∧
    (DeleteUserHandler env r w).DBCalls = w.DBCalls := by
  rcases hE : ExtractDBAndToken env w.Registry r with ⟨t, s, c⟩
  rw [hE] at h
  simp only at h
  subst h
  refine ⟨?_, ?_, ?_, ?_⟩ <;>
    simp [UpdateUserHandler, DeleteUserHandler, hE, hiss, RespondWithError]

/-- Witness of C7: the refresh token of a login, presented after that login. -/
theorem C7_refresh_token_is_refused_witness :
    (UpdateUserHandler demoEnv refreshRequest
        (LoginUserHandler demoEnv loginRequest World.fresh)).Responses =
      (LoginUserHandler demoEnv loginRequest World.fresh).Responses ++
      [(StatusUnauthorized,
        Payload.error "Using JWT refresh token when JWT access token is required")] ∧
    (UpdateUserHandler demoEnv refreshRequest
        (LoginUserHandler demoEnv loginRequest World.fresh)).DBCalls =
      (LoginUserHandler demoEnv loginRequest World.fresh).DBCalls ∧
    (DeleteUserHandler demoEnv refreshRequest
        (LoginUserHandler demoEnv loginRequest World.fresh)).Responses =
      (LoginUserHandler demoEnv loginRequest World.fresh).Responses ++
      [(StatusUnauthorized,
        Payload.error "Using JWT refresh token when JWT access token is required")] ∧
    (DeleteUserHandler demoEnv refreshRequest
        (LoginUserHandler demoEnv loginRequest World.fresh)).DBCalls =
      (LoginUserHandler demoEnv loginRequest World.fresh).DBCalls :=
  C7_refresh_token_is_refused demoEnv refreshRequest
    (LoginUserHandler demoEnv loginRequest World.fresh) demoRefresh (by decide) (by decide)

/-- C8 (refuted as stated): on a request without `Authorization` header
`CreateUserHandler` calls `CreateUser` and `GetUsersHandler` calls `GetAllUsers`. -/
theorem C8_create_and_list_need_no_token :
    anonymousRequest.Authorization = "" ∧
    (ExtractDBAndToken demoEnv World.fresh.Registry anonymousRequest).1 = none ∧
    (CreateUserHandler demoEnv anonymousRequest World.fresh).DBCalls =
      [DBCall.CreateUser "Eve" "e@x.com" "pw"] ∧
    (GetUsersHandler demoEnv anonymousRequest World.fresh).DBCalls = [DBCall.GetAllUsers] := by
  decide

/-- C8 (amended): `UpdateUserHandler` and `DeleteUserHandler` call no database
method on a request that carries no `Authorization` header, nor on one for which
`ExtractDBAndToken` does not return a token whose `Issuer` claim is a string other
than `go-chat-application-refresh`; `CreateUserHandler` and `GetUsersHandler` do
not depend on the `Authorization` header. -/
theorem C8_update_and_delete_need_token (env : Env) (r : Request) (w : World)
    (h : r.Authorization = "" ∨
      ∀ tok issuer, (ExtractDBAndToken env w.Registry r).1 = some tok →
        tok.Claims.index "Issuer" = Value.str issuer →
        issuer = "go-chat-application-refresh") :
    (UpdateUserHandler env r w).DBCalls = w.DBCalls ∧
    (DeleteUserHandler env r w).DBCalls = w.DBCalls ∧
    (∀ header, CreateUserHandler env { r with Authorization := header } w =
      CreateUserHandler env r w) ∧
    (∀ header, GetUsersHandler env { r with Authorization := header } w =
      GetUsersHandler env r w) := by
  refine ⟨?_, ?_, fun _ => rfl, fun _ => rfl⟩
  all_goals
    rcases hE : ExtractDBAndToken env w.Registry r with ⟨t, s, c⟩
    have h' : ∀ tok issuer, t = some tok → tok.Claims.index "Issuer" = Value.str issuer →
        issuer = "go-chat-application-refresh" := by
      rcases h with h | h
      · intro tok issuer ht _
        have hx : ExtractJWTTokenFromHeader r = "" := by
          simp [ExtractJWTTokenFromHeader, h]
        have : ExtractDBAndToken env w.Registry r = (none, "", none) := by
          simp [ExtractDBAndToken, hx]
        rw [this] at hE
        simp only [Prod.mk.injEq] at hE
        rw [← hE.1] at ht
        simp at ht
      · intro tok issuer ht
        apply h
        rw [hE]
        exact ht
    cases t with
    | none => simp [UpdateUserHandler, DeleteUserHandler, hE]
    | some tok =>
      cases hiss : tok.Claims.index "Issuer" with
      | str issuer =>
        have := h' tok issuer rfl hiss
        subst this
        simp [UpdateUserHandler, DeleteUserHandler, hE, hiss, RespondWithError]
      | null => simp [UpdateUserHandler, DeleteUserHandler, hE, hiss, goPanic]
      | bool b => simp [UpdateUserHandler, DeleteUserHandler, hE, hiss, goPanic]
      | num n => simp [UpdateUserHandler, DeleteUserHandler, hE, hiss, goPanic]
      | date d => simp [UpdateUserHandler, DeleteUserHandler, hE, hiss, goPanic]

/-- Witness of C8 (amended): the request without `Authorization` header. -/
theorem C8_update_and_delete_need_token_witness :
    (UpdateUserHandler demoEnv anonymousRequest World.fresh).DBCalls =
      World.fresh.DBCalls ∧
    (DeleteUserHandler demoEnv anonymousRequest World.fresh).DBCalls =
      World.fresh.DBCalls :=
  ⟨(C8_update_and_delete_need_token demoEnv anonymousRequest World.fresh
      (Or.inl (by decide))).1,
   (C8_update_and_delete_need_token demoEnv anonymousRequest World.fresh
      (Or.inl (by decide))).2.1⟩

/-- C9: after a successful login of user `u` (the email matches, the password
verifies, both identifiers are generated, both tokens are signed) into a registry
that satisfies the registry invariant, the handler answers 200 with the two
signed strings, and, assuming that verification of a string signed with the
process secret returns the signed claims, for each of the two strings `s` a
request with header `Bearer s` and the database client in its context makes
`ExtractDBAndToken`, run on the registry the login left, return a token whose
`Subject` claim is `u.ID.String()`, together with `s` and the client. -/
theorem C9_issued_tokens_authenticate (env env' : Env) (r req : Request) (w : World)
    (params : Params) (db db' : MongoDBClient) (users : List User) (u : User)
    (a b sA sR s : String)
    (hk : Keyed w.Registry)
    (hbody : r.Body = some params) (hdb : r.ctxDB = some db)
    (husers : env.GetAllUsers = some users)
    (hu : users.find? (fun user => decide (params.Email = user.Email)) = some u)
    (hpw : env.CompareHashAndPassword u.Password params.Password = true)
    (ha : env.NewUUID 0 = some a) (hb : env.NewUUID 1 = some b)
    (hsA : env.eng.SignedString (NewWithClaims SigningMethod.HS256 (accessClaims env a u))
      env.JwtSecret = some sA)
    (hsR : env.eng.SignedString (NewWithClaims SigningMethod.HS256 (refreshClaims env b u))
      env.JwtSecret = some sR)
    (hrt : env.eng.RoundTrip env.JwtSecret)
    (heng : env'.eng = env.eng) (hsec : env'.JwtSecret = env.JwtSecret)
    (hs : s = sA ∨ s = sR)
    (hreq : req.Authorization = "Bearer " ++ s) (hreqdb : req.ctxDB = some db') :
    (LoginUserHandler env r w).Responses = w.Responses ++
      [(StatusOK, Payload.login (Value.str (ObjectIDString u.ID)) u.Name u.Email sA sR)] ∧
    ∃ tok, ExtractDBAndToken env' (LoginUserHandler env r w).Registry req =
        (some tok, s, some db') ∧
      tok.Claims.index "Subject" = Value.str (ObjectIDString u.ID) := by
  refine ⟨login_success env r w params db users u a b sA sR hbody hdb husers hu hpw ha hb
    hsA hsR, ?_⟩
  rw [login_world env r w params db users u a b hbody hdb husers hu ha hb]
  have hkA : Keyed (TokenMap.assign w.Registry a
      (NewWithClaims SigningMethod.HS256 (accessClaims env a u))) :=
    Keyed_assign _ _ _ hk rfl
  have hk2 := Keyed_assign _ b (NewWithClaims SigningMethod.HS256 (refreshClaims env b u))
    hkA rfl
  -- what the scan finds for either identifier
  have key : ∀ (tok0 : Token) (i : String),
      tok0.Method.isHMAC = true →
      Validate (env'.Now 0) (jsonClaims tok0.Claims) = true →
      env.eng.SignedString tok0 env.JwtSecret = some s →
      (jsonClaims tok0.Claims).index "ID" = Value.str i →
      ∀ found, TokenMap.lookup (TokenMap.assign (TokenMap.assign w.Registry a
          (NewWithClaims SigningMethod.HS256 (accessClaims env a u))) b
          (NewWithClaims SigningMethod.HS256 (refreshClaims env b u))) i = some found →
        found.Claims.index "Revoked" = Value.bool false →
        ExtractDBAndToken env' (TokenMap.assign (TokenMap.assign w.Registry a
          (NewWithClaims SigningMethod.HS256 (accessClaims env a u))) b
          (NewWithClaims SigningMethod.HS256 (refreshClaims env b u))) req =
          (some found, s, some db') := by
    intro tok0 i hm hv hsig hid found hl hrev
    obtain ⟨hne, parsed, hparse, hcl⟩ :=
      ParseAndValidate_signed env.eng env.JwtSecret (env'.Now 0) tok0 s hrt hm hv hsig
    have hx : ExtractJWTTokenFromHeader req = s := ExtractJWTTokenFromHeader_bearer req s hreq hne
    have hp : ParseAndValidateJWTToken env'.eng env'.JwtSecret (env'.Now 0)
        (ExtractJWTTokenFromHeader req) = some parsed := by
      rw [hx, heng, hsec]
      exact hparse
    have hpid : parsed.Claims.index "ID" = Value.str i := by
      rw [hcl]
      exact hid
    rw [ExtractDBAndToken_parsed env' _ req parsed hp,
      rangeTokenMap_keyed _ parsed found i hk2 hpid hl, hx, hreqdb]
    simp [hrev]
  rcases hs with hs | hs
  · subst hs
    by_cases hab : a = b
    · subst hab
      exact ⟨_, key (NewWithClaims SigningMethod.HS256 (accessClaims env a u)) a rfl
        (Validate_accessClaims _ env a u) hsA rfl _ (lookup_assign_same _ _ _) rfl, rfl⟩
    · refine ⟨_, key (NewWithClaims SigningMethod.HS256 (accessClaims env a u)) a rfl
        (Validate_accessClaims _ env a u) hsA rfl
        (NewWithClaims SigningMethod.HS256 (accessClaims env a u)) ?_ rfl, rfl⟩
      rw [lookup_assign_other _ _ _ _ hab, lookup_assign_same]
  · subst hs
    exact ⟨_, key (NewWithClaims SigningMethod.HS256 (refreshClaims env b u)) b rfl
      (Validate_refreshClaims _ env b u) hsR rfl _ (lookup_assign_same _ _ _) rfl, rfl⟩

/-- Witness of C9: the access token of the login of `demoUser`. -/
theorem C9_issued_tokens_authenticate_witness :
    (LoginUserHandler demoEnv loginRequest World.fresh).Responses = World.fresh.Responses ++
      [(StatusOK, Payload.login (Value.str (ObjectIDString demoUser.ID)) demoUser.Name
        demoUser.Email "hdr.acc.sig" "hdr.ref.sig")] ∧
    ∃ tok, ExtractDBAndToken demoEnvLater
        (LoginUserHandler demoEnv loginRequest World.fresh).Registry accessRequest =
        (some tok, "hdr.acc.sig", some demoDB) ∧
      tok.Claims.index "Subject" = Value.str (ObjectIDString demoUser.ID) :=
  C9_issued_tokens_authenticate demoEnv demoEnvLater loginRequest accessRequest World.fresh
    { Name := "", Email := "u@x.com", Password := "secret" } demoDB demoDB [demoUser] demoUser
    "a1" "r1" "hdr.acc.sig" "hdr.ref.sig" "hdr.acc.sig" (by decide) (by decide) (by decide)
    (by decide) (by decide) (by decide) (by decide) (by decide) (by decide) (by decide)
    demo_roundTrip rfl rfl (Or.inl rfl) (by decide) (by decide)

/-- C10: at a login in which the email matches user `u` and the password
verifies, with generated identifiers `a` and `b`, the registry after the handler
maps `b` to a token with issuer `go-chat-application-refresh`, subject
`u.ID.String()`, `Revoked = false` and `ExpiresAt` the clock reading plus 7 times
24 hours, and, when `a` and `b` are distinct, it also maps `a` to a token with
issuer `go-chat-application-access`, the same subject, `Revoked = false` and
`ExpiresAt` the clock reading plus one hour. -/
theorem C10_login_registers_both_tokens (env : Env) (r : Request) (w : World)
    (params : Params) (db : MongoDBClient) (users : List User) (u : User) (a b : String)
    (hbody : r.Body = some params) (hdb : r.ctxDB = some db)
    (husers : env.GetAllUsers = some users)
    (hu : users.find? (fun user => decide (params.Email = user.Email)) = some u)
    (_hpw : env.CompareHashAndPassword u.Password params.Password = true)
    (ha : env.NewUUID 0 = some a) (hb : env.NewUUID 1 = some b) :
    (∃ refresh, TokenMap.lookup (LoginUserHandler env r w).Registry b = some refresh ∧
      IssuedAs refresh b "go-chat-application-refresh" (ObjectIDString u.ID)
        (env.Now 3 + 7 * (24 * Hour))) ∧
    (a ≠ b →
      ∃ access, TokenMap.lookup (LoginUserHandler env r w).Registry a = some access ∧
        IssuedAs access a "go-chat-application-access" (ObjectIDString u.ID)
          (env.Now 1 + Hour)) := by
  rw [login_world env r w params db users u a b hbody hdb husers hu ha hb]
  constructor
  · exact ⟨_, lookup_assign_same _ _ _, rfl, rfl, rfl, rfl, rfl⟩
  · intro hab
    refine ⟨NewWithClaims SigningMethod.HS256 (accessClaims env a u), ?_, rfl, rfl, rfl, rfl, rfl⟩
    rw [lookup_assign_other _ _ _ _ hab, lookup_assign_same]

/-- Witness of C10: the login of `demoUser`, with the identifiers `a1` and `r1`. -/
theorem C10_login_registers_both_tokens_witness :
    (∃ refresh, TokenMap.lookup (LoginUserHandler demoEnv loginRequest World.fresh).Registry
        "r1" = some refresh ∧
      IssuedAs refresh "r1" "go-chat-application-refresh" (ObjectIDString demoUser.ID)
        (demoEnv.Now 3 + 7 * (24 * Hour))) ∧
    ("a1" ≠ "r1" →
      ∃ access, TokenMap.lookup (LoginUserHandler demoEnv loginRequest World.fresh).Registry
          "a1" = some access ∧
        IssuedAs access "a1" "go-chat-application-access" (ObjectIDString demoUser.ID)
          (demoEnv.Now 1 + Hour)) :=
  C10_login_registers_both_tokens demoEnv loginRequest World.fresh
    { Name := "", Email := "u@x.com", Password := "secret" } demoDB [demoUser] demoUser
    "a1" "r1" (by decide) (by decide) (by decide) (by decide) (by decide) (by decide)
    (by decide)

/-- C11 (refuted as stated): the header `Basic hdr.acc.sig` is not of the form
`Bearer ` followed by a token, yet `ExtractJWTTokenFromHeader` returns the text
after its first space and `ExtractDBAndToken` returns the registered token. -/
theorem C11_other_scheme_is_accepted :
    (¬ ∃ t, t ≠ "" ∧ basicRequest.Authorization = "Bearer " ++ t) ∧
    ExtractJWTTokenFromHeader basicRequest = "hdr.acc.sig" ∧
    ExtractDBAndToken demoEnv [("a1", demoAccess), ("r1", demoRefresh)] basicRequest =
      (some demoAccess, "hdr.acc.sig", some demoDB) := by
  refine ⟨?_, by decide, by decide⟩
  rintro ⟨t, _, h⟩
  have hd := congrArg String.data h
  rw [bearer_data] at hd
  have hc := congrArg (fun l => List.head? (List.tail l)) hd
  have he : List.head? (List.tail basicRequest.Authorization.data) = some 'a' := by decide
  simp only [he, List.tail_cons, List.head?_cons, Option.some.injEq] at hc
  exact absurd hc (by decide)

/-- C11 (amended): for every `Authorization` header value that is empty, is at
most 7 bytes long, contains no space, or has nothing after its first space,
`ExtractJWTTokenFromHeader` returns the empty string, and therefore
`ExtractDBAndToken` returns `(nil, "", nil)`. -/
theorem C11_header_without_token (env : Env) (tm : TokenMap) (r : Request)
    (h : r.Authorization = "" ∨ r.Authorization.utf8ByteSize ≤ 7 ∨
      ' ' ∉ r.Authorization.data ∨ ∃ before, SplitN2 r.Authorization = [before, ""]) :
    ExtractJWTTokenFromHeader r = "" ∧ ExtractDBAndToken env tm r = (none, "", none) := by
  have hx : ExtractJWTTokenFromHeader r = "" := by
    unfold ExtractJWTTokenFromHeader
    rcases h with h | h | h | ⟨before, h⟩
    · simp [h]
    · have h' : ¬ (r.Authorization.utf8ByteSize > 7 ∧ ' ' ∈ r.Authorization.data) := by
        intro hc
        omega
      simp only [if_neg h']
      split <;> rfl
    · have h' : ¬ (r.Authorization.utf8ByteSize > 7 ∧ ' ' ∈ r.Authorization.data) := by
        intro hc
        exact h hc.2
      simp only [if_neg h']
      split <;> rfl
    · simp only [h]
      split
      · rfl
      · split <;> rfl
  refine ⟨hx, ?_⟩
  unfold ExtractDBAndToken
  simp [hx]

/-- Witness of C11 (amended): a header that ends at its first space. -/
theorem C11_header_without_token_witness :
    ExtractJWTTokenFromHeader truncatedRequest = "" ∧
    ExtractDBAndToken demoEnv [("a1", demoAccess), ("r1", demoRefresh)] truncatedRequest =
      (none, "", none) :=
  C11_header_without_token demoEnv [("a1", demoAccess), ("r1", demoRefresh)] truncatedRequest
    (Or.inr (Or.inr (Or.inr ⟨"Bearerxx", by decide⟩)))

/-- C12: for every non-empty token string `t`, with or without spaces in it,
`ExtractJWTTokenFromHeader` on a request whose `Authorization` header is `Bearer `
followed by `t` returns exactly `t`. -/
theorem C12_bearer_token_is_extracted (r : Request) (t : String) (ht : t ≠ "")
    (hr : r.Authorization = "Bearer " ++ t) : ExtractJWTTokenFromHeader r = t :=
  ExtractJWTTokenFromHeader_bearer r t hr ht

/-- Witness of C12: a token that contains a space. -/
theorem C12_bearer_token_is_extracted_witness :
    ' ' ∈ "abc def".data ∧ ExtractJWTTokenFromHeader spacedRequest = "abc def" :=
  ⟨by decide, C12_bearer_token_is_extracted spacedRequest "abc def" (by decide) (by decide)⟩

/-- C14: in every registry reached from the empty `TokenMap` by a sequence of
`AddTokenToMap` calls, every key `k` maps to a token whose `ID` claim is `k`; the
scan of `ExtractDBAndToken` selects what the keyed lookup selects (the entry
`TokenMap[id]` when `id` is registered, the parsed token otherwise); and for every
other iteration order of the same entries the scan selects the same token and
`ExtractDBAndToken` returns the same result. -/
theorem C14_scan_agrees_with_keyed_lookup (tokens : List Token) (tm tm' : TokenMap)
    (parsed : Token) (hreach : addTokens [] tokens = some tm) (hperm : List.Perm tm' tm) :
    (∀ k tok, TokenMap.lookup tm k = some tok → tok.Claims.index "ID" = Value.str k) ∧
    rangeTokenMap tm parsed = keyedSelect tm parsed ∧
    rangeTokenMap tm' parsed = rangeTokenMap tm parsed ∧
    (∀ env r, ExtractDBAndToken env tm' r = ExtractDBAndToken env tm r) := by
  have hk : Keyed tm := Keyed_addTokens tokens [] tm Keyed_nil hreach
  have hk' : Keyed tm' := Keyed_perm tm tm' hperm hk
  have hsel : ∀ p : Token, rangeTokenMap tm' p = rangeTokenMap tm p := by
    intro p
    rw [rangeTokenMap_eq_keyedSelect tm' p hk', rangeTokenMap_eq_keyedSelect tm p hk]
    unfold keyedSelect
    cases p.Claims.index "ID" with
    | str id => simp only [lookup_perm tm tm' id hperm hk]
    | null => rfl
    | bool b => rfl
    | num n => rfl
    | date d => rfl
  refine ⟨?_, rangeTokenMap_eq_keyedSelect tm parsed hk, hsel parsed, ?_⟩
  · intro k tok hl
    exact hk.2 (k, tok) (mem_of_lookup tm k tok hl)
  · intro env r
    unfold ExtractDBAndToken
    simp only [hsel]

/-- Witness of C14: the registry of one login, visited in the two possible
orders, against the access token as parsed from the wire. -/
theorem C14_scan_agrees_with_keyed_lookup_witness :
    rangeTokenMap [("a1", demoAccess), ("r1", demoRefresh)] demoWire =
      keyedSelect [("a1", demoAccess), ("r1", demoRefresh)] demoWire ∧
    rangeTokenMap [("r1", demoRefresh), ("a1", demoAccess)] demoWire =
      rangeTokenMap [("a1", demoAccess), ("r1", demoRefresh)] demoWire :=
  ⟨(C14_scan_agrees_with_keyed_lookup [demoAccess, demoRefresh]
      [("a1", demoAccess), ("r1", demoRefresh)] [("r1", demoRefresh), ("a1", demoAccess)]
      demoWire (by decide) (List.Perm.swap _ _ [])).2.1,
   (C14_scan_agrees_with_keyed_lookup [demoAccess, demoRefresh]
      [("a1", demoAccess), ("r1", demoRefresh)] [("r1", demoRefresh), ("a1", demoAccess)]
      demoWire (by decide) (List.Perm.swap _ _ [])).2.2.1⟩

end GoChat
